import Mathlib

/-!
Verification of the resilient ingestion pipeline of the SKU_Analysis_ETL
repository.  The definitions below are a shallow embedding of the Python
sources, chiefly src/etl/etl_ingest_resilient.py and
src/monitoring/monitors.py; each definition carries a comment pointing to
the function it embeds.  The theorems settle the frozen claims about the
pipeline.
-/

set_option maxRecDepth 20000

namespace SkuEtl

/-! ### The target table and the hash-aware upsert (upsert_dataframe)

A stored purchase-order line item.  The natural composite key is
(purchase_order_id, line_item_number); source_hash is the change-detection
fingerprint column; payload stands for all remaining non-key columns of the
target table (supplier, product, quantity, ..., collapsed into one field,
since the upsert treats them uniformly: the ON CONFLICT clause overwrites
every non-key column at once). -/

structure Row where
  purchase_order_id : String
  line_item_number : String
  source_hash : String
  payload : String
deriving DecidableEq

/-- True when row q sits at key (po, line); embeds the SQL match on the
conflict target (purchase_order_id, line_item_number). -/
def sameKey (q : Row) (po line : String) : Bool :=
  decide (q.purchase_order_id = po ∧ q.line_item_number = line)

/-- Lookup by natural key, embedding the unique-index probe of the
INSERT ... ON CONFLICT statement. -/
def findRow (t : List Row) (po line : String) : Option Row :=
  t.find? (fun q => sameKey q po line)

/-- One row of the statement built in upsert_dataframe
(etl_ingest_resilient.py lines 443-456): INSERT ... ON CONFLICT
(purchase_order_id, line_item_number) DO UPDATE SET all-non-key-columns
WHERE stored.source_hash is different from excluded.source_hash.
Returns the new table and whether the row caused a write. -/
def upsertRow (t : List Row) (r : Row) : List Row × Bool :=
  match findRow t r.purchase_order_id r.line_item_number with
  | none => (t ++ [r], true)
  | some s =>
    if s.source_hash = r.source_hash then
      (t, false)
    else
      (t.map (fun q =>
        if sameKey q r.purchase_order_id r.line_item_number then r else q), true)

/-- A multi-row INSERT ... ON CONFLICT executed row by row, returning the
new table and the number of rows actually written. -/
def upsertBatch (t : List Row) (rs : List Row) : List Row × Nat :=
  match rs with
  | [] => (t, 0)
  | r :: rest =>
    let p := upsertRow t r
    let q := upsertBatch p.1 rest
    (q.1, (if p.2 then 1 else 0) + q.2)

/-- Distinctness of the natural keys inside one batch. -/
def KeysDistinct (rs : List Row) : Prop :=
  rs.Pairwise (fun a b =>
    a.purchase_order_id ≠ b.purchase_order_id ∨
    a.line_item_number ≠ b.line_item_number)

instance (rs : List Row) : Decidable (KeysDistinct rs) := by
  unfold KeysDistinct; infer_instance

/-! Helper lemmas about findRow under the two mutation shapes used by
upsertRow (append of a fresh row, replacement at one key). -/

lemma sameKey_self (r : Row) :
    sameKey r r.purchase_order_id r.line_item_number = true := by
  simp [sameKey]

/-- Equation lemma: no conflict, so the statement inserts a fresh row. -/
lemma upsertRow_of_none (t : List Row) (r : Row)
    (h : findRow t r.purchase_order_id r.line_item_number = none) :
    upsertRow t r = (t ++ [r], true) := by
  unfold upsertRow
  rw [h]

/-- Equation lemma: conflict with an identical source_hash, so the WHERE
clause suppresses the update and nothing is written. -/
lemma upsertRow_of_same (t : List Row) (r s : Row)
    (h : findRow t r.purchase_order_id r.line_item_number = some s)
    (hh : s.source_hash = r.source_hash) :
    upsertRow t r = (t, false) := by
  unfold upsertRow
  rw [h]
  dsimp only
  rw [if_pos hh]

/-- Equation lemma: conflict with a differing source_hash, so every
non-key column of the conflicting row is overwritten. -/
lemma upsertRow_of_diff (t : List Row) (r s : Row)
    (h : findRow t r.purchase_order_id r.line_item_number = some s)
    (hh : ¬s.source_hash = r.source_hash) :
    upsertRow t r =
      (t.map (fun q =>
        if sameKey q r.purchase_order_id r.line_item_number then r else q),
       true) := by
  unfold upsertRow
  rw [h]
  dsimp only
  rw [if_neg hh]

lemma find?_map_if {α : Type} (p : α → Bool) (r : α) (hr : p r = true)
    (t : List α) :
    (t.map (fun q => if p q then r else q)).find? p =
      (t.find? p).map (fun _ => r) := by
  induction t with
  | nil => simp
  | cons a l ih =>
    by_cases hpa : p a = true
    · rw [List.map_cons, if_pos hpa, List.find?_cons_of_pos _ hr,
        List.find?_cons_of_pos _ hpa]
      rfl
    · have hpa' : ¬p a := by simpa using hpa
      rw [List.map_cons, if_neg hpa, List.find?_cons_of_neg _ hpa',
        List.find?_cons_of_neg _ hpa', ih]

lemma find?_map_congr {α : Type} (f : α → α) (p : α → Bool) (t : List α)
    (h : ∀ q ∈ t, p (f q) = p q ∧ (p q = true → f q = q)) :
    (t.map f).find? p = t.find? p := by
  induction t with
  | nil => simp
  | cons a l ih =>
    obtain ⟨hpa, hfa⟩ := h a (List.mem_cons_self a l)
    have ih' := ih (fun q hq => h q (List.mem_cons_of_mem a hq))
    by_cases hp : p a = true
    · rw [List.map_cons, List.find?_cons_of_pos _ (hpa.trans hp),
        List.find?_cons_of_pos _ hp, hfa hp]
    · have hp1 : ¬p a := by simpa using hp
      have hp2 : ¬p (f a) = true := by rw [hpa]; exact hp
      rw [List.map_cons, List.find?_cons_of_neg _ hp2,
        List.find?_cons_of_neg _ hp1, ih']

/-- After upserting r, the row now stored at the key of r carries exactly
the source_hash of r. -/
lemma findRow_upsertRow_self (t : List Row) (r : Row) :
    ∃ s, findRow (upsertRow t r).1 r.purchase_order_id r.line_item_number
          = some s ∧ s.source_hash = r.source_hash := by
  cases h : findRow t r.purchase_order_id r.line_item_number with
  | none =>
    refine ⟨r, ?_, rfl⟩
    rw [upsertRow_of_none t r h]
    unfold findRow at h ⊢
    simp [List.find?_append, h, List.find?, sameKey_self]
  | some s =>
    by_cases hh : s.source_hash = r.source_hash
    · rw [upsertRow_of_same t r s h hh]
      exact ⟨s, h, hh⟩
    · refine ⟨r, ?_, rfl⟩
      rw [upsertRow_of_diff t r s h hh]
      unfold findRow at h ⊢
      dsimp only
      rw [find?_map_if
        (fun q => sameKey q r.purchase_order_id r.line_item_number)
        r (sameKey_self r), h]
      rfl

/-- Upserting r leaves the lookup at every other key unchanged. -/
lemma findRow_upsertRow_other (t : List Row) (r : Row) (po line : String)
    (hne : ¬(po = r.purchase_order_id ∧ line = r.line_item_number)) :
    findRow (upsertRow t r).1 po line = findRow t po line := by
  have hkey : sameKey r po line = false := by
    simp only [sameKey, decide_eq_false_iff_not]
    intro ⟨h1, h2⟩
    exact hne ⟨h1.symm, h2.symm⟩
  cases h : findRow t r.purchase_order_id r.line_item_number with
  | none =>
    rw [upsertRow_of_none t r h]
    unfold findRow
    simp [List.find?_append, List.find?, hkey]
  | some s =>
    by_cases hh : s.source_hash = r.source_hash
    · rw [upsertRow_of_same t r s h hh]
    · rw [upsertRow_of_diff t r s h hh]
      unfold findRow
      apply find?_map_congr
      intro q _
      by_cases hq : sameKey q r.purchase_order_id r.line_item_number = true
      · have hq' : q.purchase_order_id = r.purchase_order_id ∧
            q.line_item_number = r.line_item_number := by
          simpa [sameKey] using hq
        have hqf : sameKey q po line = false := by
          simp only [sameKey, decide_eq_false_iff_not]
          intro ⟨h1, h2⟩
          exact hne ⟨by rw [← h1, hq'.1], by rw [← h2, hq'.2]⟩
        constructor
        · rw [if_pos hq, hkey, hqf]
        · intro hcontra
          rw [hqf] at hcontra
          cases hcontra
      · constructor
        · rw [if_neg hq]
        · intro _
          rw [if_neg hq]

/-- A whole batch leaves the lookup at a key unchanged when no batch row
sits at that key. -/
lemma findRow_upsertBatch_other (rs : List Row) (t : List Row)
    (po line : String)
    (h : ∀ r ∈ rs,
      ¬(po = r.purchase_order_id ∧ line = r.line_item_number)) :
    findRow (upsertBatch t rs).1 po line = findRow t po line := by
  induction rs generalizing t with
  | nil => rfl
  | cons r rest ih =>
    show findRow (upsertBatch (upsertRow t r).1 rest).1 po line = _
    rw [ih (upsertRow t r).1 (fun b hb => h b (List.mem_cons_of_mem r hb)),
      findRow_upsertRow_other t r po line (h r (List.mem_cons_self r rest))]

/-- After loading a batch with pairwise distinct keys, the row stored at
the key of each batch record carries that record's source_hash. -/
lemma upsertBatch_hash_at_each (t : List Row) (rs : List Row)
    (hk : KeysDistinct rs) :
    ∀ r ∈ rs,
      ∃ s, findRow (upsertBatch t rs).1
            r.purchase_order_id r.line_item_number = some s
          ∧ s.source_hash = r.source_hash := by
  induction rs generalizing t with
  | nil => intro r hr; cases hr
  | cons r0 rest ih =>
    have hk' := (List.pairwise_cons.mp hk)
    intro r hr
    rcases List.mem_cons.mp hr with rfl | hmem
    · show ∃ s, findRow (upsertBatch (upsertRow t r).1 rest).1
          r.purchase_order_id r.line_item_number = some s
          ∧ s.source_hash = r.source_hash
      rw [findRow_upsertBatch_other rest (upsertRow t r).1 _ _ ?_]
      · exact findRow_upsertRow_self t r
      · intro b hb
        intro ⟨h1, h2⟩
        rcases hk'.1 b hb with hne | hne
        · exact hne h1
        · exact hne h2
    · show ∃ s, findRow (upsertBatch (upsertRow t r0).1 rest).1
          r.purchase_order_id r.line_item_number = some s
          ∧ s.source_hash = r.source_hash
      exact ih (upsertRow t r0).1 hk'.2 r hmem

/-- A record whose key already stores its source_hash causes no write. -/
lemma upsertRow_noop (t : List Row) (r : Row)
    (h : ∃ s, findRow t r.purchase_order_id r.line_item_number = some s
        ∧ s.source_hash = r.source_hash) :
    upsertRow t r = (t, false) := by
  rcases h with ⟨s, hf, hh⟩
  exact upsertRow_of_same t r s hf hh

/-- A batch all of whose records already have their source_hash stored at
their key writes nothing at all. -/
lemma upsertBatch_noop (t : List Row) (rs : List Row)
    (h : ∀ r ∈ rs,
      ∃ s, findRow t r.purchase_order_id r.line_item_number = some s
          ∧ s.source_hash = r.source_hash) :
    upsertBatch t rs = (t, 0) := by
  induction rs with
  | nil => rfl
  | cons r rest ih =>
    have h0 := upsertRow_noop t r (h r (List.mem_cons_self r rest))
    show ((upsertBatch (upsertRow t r).1 rest).1,
        (if (upsertRow t r).2 then 1 else 0)
          + (upsertBatch (upsertRow t r).1 rest).2) = (t, 0)
    rw [h0]
    have ih' := ih (fun b hb => h b (List.mem_cons_of_mem r hb))
    dsimp only
    rw [ih']
    simp

/-- Claim C4: the upsert of upsert_dataframe (etl_ingest_resilient.py
lines 443-456) is hash-gated and idempotent.  First conjunct: re-upserting
a distinct-key batch over the table it just produced writes zero rows and
leaves the table unchanged.  Second conjunct, for a record r conflicting
with a stored row s: if the source_hash values coincide the statement
writes nothing and the table is untouched; if they differ the row at the
key of r becomes exactly r (all non-key columns overwritten) and every row
at any other key is retained. -/
theorem upsert_idempotent_hash_gated
    (t rs : List Row) (s r : Row) (hk : KeysDistinct rs) :
    upsertBatch (upsertBatch t rs).1 rs = ((upsertBatch t rs).1, 0)
    ∧ (findRow t r.purchase_order_id r.line_item_number = some s →
        (s.source_hash = r.source_hash → upsertRow t r = (t, false))
        ∧ (s.source_hash ≠ r.source_hash →
            (upsertRow t r).2 = true
            ∧ findRow (upsertRow t r).1
                r.purchase_order_id r.line_item_number = some r
            ∧ ∀ q ∈ t,
                ¬(q.purchase_order_id = r.purchase_order_id
                  ∧ q.line_item_number = r.line_item_number) →
                q ∈ (upsertRow t r).1)) := by
  constructor
  · exact upsertBatch_noop _ rs (upsertBatch_hash_at_each t rs hk)
  · intro hf
    constructor
    · intro hh
      exact upsertRow_of_same t r s hf hh
    · intro hh
      rw [upsertRow_of_diff t r s hf hh]
      refine ⟨rfl, ?_, ?_⟩
      · unfold findRow at hf ⊢
        dsimp only
        rw [find?_map_if
          (fun q => sameKey q r.purchase_order_id r.line_item_number)
          r (sameKey_self r), hf]
        rfl
      · intro q hq hne
        dsimp only
        have hkf : sameKey q r.purchase_order_id r.line_item_number
            = false := by
          simp only [sameKey, decide_eq_false_iff_not]
          exact hne
        have hmem := List.mem_map_of_mem
          (fun q => if sameKey q r.purchase_order_id r.line_item_number
            then r else q) hq
        have hfq : (fun q =>
            if sameKey q r.purchase_order_id r.line_item_number
            then r else q) q = q := by
          simp [hkf]
        rw [hfq] at hmem
        exact hmem

/-- A stored row used by the claim C4 witness. -/
def c4s : Row := ⟨"PO1", "10", "h1", "old payload"⟩

/-- An incoming record with the key and source_hash of c4s but a changed
payload, used by the claim C4 witness. -/
def c4r : Row := ⟨"PO1", "10", "h1", "new payload"⟩

/-- The concrete table of the claim C4 witness. -/
def c4t : List Row := [c4s]

/-- A concrete distinct-key batch for the claim C4 witness. -/
def c4rs : List Row := [⟨"PO2", "10", "h2", "a"⟩, ⟨"PO2", "20", "h3", "b"⟩]

/-- Witness for claim C4 at concrete inputs: the double load of c4rs
writes nothing the second time, and re-sending the stored hash for the
key of c4s leaves the table untouched. -/
theorem upsert_idempotent_hash_gated_witness :
    upsertBatch (upsertBatch c4t c4rs).1 c4rs = ((upsertBatch c4t c4rs).1, 0)
    ∧ upsertRow c4t c4r = (c4t, false) := by
  have h := upsert_idempotent_hash_gated c4t c4rs c4s c4r (by decide)
  exact ⟨h.1, ((h.2 (by decide)).1 (by decide))⟩

/-! ### Chunked load inside one transaction (upsert_dataframe lines 431-460)

The Python function opens ONE transaction (with engine.begin() as conn:)
and executes one multi-row upsert statement per 2000-record chunk inside
that same transaction.  The transaction commits only when the whole loop
finishes; an exception raised by any chunk statement propagates out of the
with-block, which rolls the entire transaction back. -/

/-- The chunk start offsets, embedding range(0, total, chunk_size). -/
def chunkStarts (total n : Nat) : List Nat :=
  (List.range ((total + n - 1) / n)).map (fun k => k * n)

/-- The chunks df.iloc[start : start + chunk_size] of the batch. -/
def chunksOfBatch (rs : List Row) (n : Nat) : List (List Row) :=
  (chunkStarts rs.length n).map (fun s => (rs.drop s).take n)

/-- Runs the per-chunk statements of the loop inside the open transaction.
failsAt i = true means the write of chunk i raises (constraint violation,
connectivity loss).  none means the transaction aborted. -/
def runChunksTx (failsAt : Nat → Bool) :
    Nat → List Row → List (List Row) → Option (List Row)
  | _, t, [] => some t
  | i, t, c :: cs =>
    if failsAt i then none
    else runChunksTx failsAt (i + 1) (upsertBatch t c).1 cs

/-- upsert_dataframe: early return on an empty frame, otherwise all chunks
run inside a single transaction.  The boolean records whether the call
completed without raising; when a chunk raises, engine.begin rolls the
whole transaction back, so the table reverts to its pre-call state. -/
def upsert_dataframe (failsAt : Nat → Bool) (rs : List Row)
    (chunk_size : Nat) (t : List Row) : List Row × Bool :=
  if rs.isEmpty then (t, true)
  else
    match runChunksTx failsAt 0 t (chunksOfBatch rs chunk_size) with
    | some t2 => (t2, true)
    | none => (t, false)

/-- Row number i of the 2001-record batch of the claim C2 counterexample;
all keys are distinct. -/
def c2row (i : Nat) : Row := ⟨toString i, "1", "h", "p"⟩

/-- A batch one record longer than the 2000-record chunk size, so the loop
executes two chunk statements. -/
def c2recs : List Row := (List.range 2001).map c2row

/-- Equation lemma: the transaction aborts at a failing chunk. -/
lemma runChunksTx_cons_fail (f : Nat → Bool) (i : Nat) (t : List Row)
    (c : List Row) (cs : List (List Row)) (h : f i = true) :
    runChunksTx f i t (c :: cs) = none := by
  show (if f i = true then none
    else runChunksTx f (i + 1) (upsertBatch t c).1 cs) = none
  rw [h]
  simp

/-- Equation lemma: a succeeding chunk applies its statement and the
transaction continues. -/
lemma runChunksTx_cons_ok (f : Nat → Bool) (i : Nat) (t : List Row)
    (c : List Row) (cs : List (List Row)) (h : f i = false) :
    runChunksTx f i t (c :: cs)
      = runChunksTx f (i + 1) (upsertBatch t c).1 cs := by
  show (if f i = true then none
    else runChunksTx f (i + 1) (upsertBatch t c).1 cs) = _
  rw [h]
  simp

/-- Counterexample to claim C2: a 2001-record batch upserted into an empty
table with the real chunk size 2000 splits into two chunks of 2000 and 1
records; the write of the second chunk (index 1) fails, and the call
leaves the table EMPTY and reports failure — the 2000 rows of the first
chunk are rolled back rather than remaining committed, because both chunk
statements share one transaction. -/
theorem upsert_chunks_rolled_back_counterexample :
    c2recs.length = 2001
    ∧ (chunksOfBatch c2recs 2000).length = 2
    ∧ ((chunksOfBatch c2recs 2000).getD 0 []).length = 2000
    ∧ upsert_dataframe (fun i => i == 1) c2recs 2000 [] = ([], false) := by
  have hlen : c2recs.length = 2001 := by
    simp [c2recs]
  have hstarts : chunkStarts 2001 2000 = [0, 2000] := by
    decide
  have hchunks : chunksOfBatch c2recs 2000
      = [(c2recs.drop 0).take 2000, (c2recs.drop 2000).take 2000] := by
    unfold chunksOfBatch
    rw [hlen, hstarts]
    rfl
  have hnil : c2recs ≠ [] := by
    intro hh
    rw [hh] at hlen
    exact absurd hlen (by decide)
  refine ⟨hlen, ?_, ?_, ?_⟩
  · rw [hchunks]
    rfl
  · rw [hchunks]
    simp [hlen]
  · have hrun : runChunksTx (fun i => i == 1) 0 []
        (chunksOfBatch c2recs 2000) = none := by
      rw [hchunks,
        runChunksTx_cons_ok _ _ _ _ _ (by decide),
        runChunksTx_cons_fail _ _ _ _ _ (by decide)]
    unfold upsert_dataframe
    rw [if_neg (by simp [List.isEmpty_iff]; exact hnil), hrun]

/-- Claim C2 amended: the chunks of one batch do NOT commit independently;
they share a single transaction, so when the write of any chunk fails the
whole batch — earlier chunks included — is rolled back and the table is
exactly what it was before the call. -/
theorem upsert_dataframe_tx_rollback (failsAt : Nat → Bool) (rs : List Row)
    (n : Nat) (t : List Row)
    (h : runChunksTx failsAt 0 t (chunksOfBatch rs n) = none) :
    upsert_dataframe failsAt rs n t = (t, false) := by
  unfold upsert_dataframe
  cases he : rs.isEmpty with
  | true =>
    exfalso
    have hrs : rs = [] := List.isEmpty_iff.mp he
    subst hrs
    have hzero : (n - 1) / n = 0 := by
      cases n with
      | zero => rfl
      | succ m =>
        apply Nat.div_eq_of_lt
        omega
    unfold chunksOfBatch chunkStarts at h
    simp [hzero, runChunksTx] at h
  | false =>
    simp only [Bool.false_eq_true, if_false, h]

/-- Witness for the amended claim C2 at a concrete input: a one-chunk
batch whose only chunk statement raises leaves the table unchanged and
reports failure. -/
theorem upsert_dataframe_tx_rollback_witness :
    upsert_dataframe (fun _ => true) [c2row 7] 2000 [c2row 5]
      = ([c2row 5], false) :=
  upsert_dataframe_tx_rollback (fun _ => true) [c2row 7] 2000 [c2row 5]
    (by decide)

/-! ### Pages, completion order and checkpoint advance
(parallel_fetch lines 246-307, run_etl lines 512-535)

parallel_fetch yields pages in the order the worker pool completes them,
which need not be submission order.  For every yielded non-empty page the
run_etl loop computes new_offset = page offset + returned count, saves it
as the checkpoint, and breaks when the page reports has_more = false. -/

structure FetchPage where
  offset : Nat
  returned : Nat
  has_more : Bool
deriving DecidableEq

/-- The checkpoint values saved by the run_etl page loop, listed in the
order the loaded pages complete. -/
def checkpointSaves : List FetchPage → List Nat
  | [] => []
  | p :: ps =>
    (p.offset + p.returned) ::
      (if p.has_more then checkpointSaves ps else [])

/-- The checkpoint after the loop: the last saved value, or the starting
offset when no page was loaded. -/
def finalCheckpoint (start : Nat) (pages : List FetchPage) : Nat :=
  (checkpointSaves pages).getLastD start

/-- Total row count of the loaded pages. -/
def totalReturned (pages : List FetchPage) : Nat :=
  (pages.map (fun p => p.returned)).sum

/-- Completion order agrees with submission order: the first page sits at
the starting offset and each page begins where the previous one ended. -/
def contiguousFrom : Nat → List FetchPage → Bool
  | _, [] => true
  | s, p :: ps => (p.offset == s) && contiguousFrom (s + p.returned) ps

/-- Two concurrently fetched pages completing in reverse submission
order: the page at offset 100 first, the page at offset 0 second. -/
def c1pages : List FetchPage := [⟨100, 100, true⟩, ⟨0, 100, true⟩]

/-- Counterexample to claim C1: starting from offset 0, two successfully
loaded pages totaling 200 rows complete out of submission order; the
checkpoint saves are 200 then 100, so the checkpoint DECREASES during the
run and its final value 100 differs from start + rows = 200. -/
theorem checkpoint_not_monotone_counterexample :
    totalReturned c1pages = 200
    ∧ checkpointSaves c1pages = [200, 100]
    ∧ ¬ List.Chain' (fun a b => a ≤ b) (0 :: checkpointSaves c1pages)
    ∧ finalCheckpoint 0 c1pages ≠ 0 + totalReturned c1pages := by
  refine ⟨by decide, by decide, ?_, by decide⟩
  intro hch
  rw [show checkpointSaves c1pages = [200, 100] from by decide] at hch
  rw [List.chain'_cons, List.chain'_cons] at hch
  obtain ⟨h1, h2, h3⟩ := hch
  omega

/-- Claim C1 amended: only when the loaded pages complete in submission
order (each page starting where the previous one ended, the first at the
starting offset) does the run_etl loop advance the checkpoint
monotonically, ending at starting offset + total rows; under out-of-order
completion the saved checkpoint can decrease (see the counterexample). -/
theorem checkpoint_monotone_of_in_order (start : Nat)
    (pages : List FetchPage)
    (hc : contiguousFrom start pages = true)
    (hm : ∀ p ∈ pages, p.has_more = true) :
    List.Chain' (fun a b => a ≤ b) (start :: checkpointSaves pages)
    ∧ finalCheckpoint start pages = start + totalReturned pages := by
  induction pages generalizing start with
  | nil =>
    constructor
    · simp [checkpointSaves]
    · simp [finalCheckpoint, checkpointSaves, totalReturned]
  | cons p ps ih =>
    have hmore : p.has_more = true := hm p (List.mem_cons_self p ps)
    unfold contiguousFrom at hc
    rw [Bool.and_eq_true] at hc
    have ho : p.offset = start := by simpa using hc.1
    have hsaves : checkpointSaves (p :: ps)
        = (start + p.returned) :: checkpointSaves ps := by
      show (p.offset + p.returned) ::
          (if p.has_more = true then checkpointSaves ps else []) = _
      rw [ho, hmore]
      simp
    have ih' := ih (start + p.returned) hc.2
      (fun q hq => hm q (List.mem_cons_of_mem p hq))
    constructor
    · rw [hsaves]
      rw [List.chain'_cons]
      exact ⟨Nat.le_add_right start p.returned, ih'.1⟩
    · unfold finalCheckpoint at ih' ⊢
      rw [hsaves, List.getLastD_cons, ih'.2]
      unfold totalReturned
      simp [Nat.add_assoc]

/-- Two pages completing in submission order, used as the witness input
for the amended claim C1. -/
def c1inOrder : List FetchPage := [⟨0, 100, true⟩, ⟨100, 50, true⟩]

/-- Witness for the amended claim C1 at a concrete input: two in-order
pages from offset 0 with 150 rows give monotone saves and a final
checkpoint of 150. -/
theorem checkpoint_monotone_of_in_order_witness :
    List.Chain' (fun a b => a ≤ b) (0 :: checkpointSaves c1inOrder)
    ∧ finalCheckpoint 0 c1inOrder = 0 + totalReturned c1inOrder :=
  checkpoint_monotone_of_in_order 0 c1inOrder (by decide) (by decide)

/-! ### The run lock (acquire_lock lines 138-160, release_lock 163-166)

The etl_lock table holds at most one row per job; the model keeps the row
for the one job under consideration.  Times are rational epoch seconds;
acquire_lock computes the age in minutes as (now - started_at) / 60 and
force-clears the lock only when that age exceeds 30. -/

/-- The lock status literal written by acquire_lock. -/
def statusRunning : String := "running"

structure LockRow where
  started_at : ℚ
  status : String
deriving DecidableEq

/-- acquire_lock: SELECT the lock row WHERE status = running; if present
and its age in minutes is > 30, DELETE it and INSERT a fresh running row;
if present and not stale, raise (the RuntimeError is modeled as the
second component being true) — the surrounding engine.begin transaction
rolls back, leaving the stored row untouched; if absent, INSERT ... ON
CONFLICT DO UPDATE writes a fresh running row.  Returns (lock table
afterwards, whether the already-running error was raised). -/
def acquire_lock (now : ℚ) (tbl : Option LockRow) :
    Option LockRow × Bool :=
  match tbl with
  | some r =>
    if r.status = statusRunning then
      if (now - r.started_at) / 60 > 30 then
        (some ⟨now, statusRunning⟩, false)
      else
        (tbl, true)
    else
      (some ⟨now, statusRunning⟩, false)
  | none => (some ⟨now, statusRunning⟩, false)

/-- A fresh running lock makes acquire_lock raise without mutation. -/
lemma acquire_lock_busy (now : ℚ) (r : LockRow)
    (hs : r.status = statusRunning)
    (hage : (now - r.started_at) / 60 < 30) :
    acquire_lock now (some r) = (some r, true) := by
  unfold acquire_lock
  dsimp only
  rw [if_pos hs, if_neg (by linarith)]

/-- A stale running lock is force-cleared and replaced. -/
lemma acquire_lock_stale (now : ℚ) (r : LockRow)
    (hs : r.status = statusRunning)
    (hage : (now - r.started_at) / 60 > 30) :
    acquire_lock now (some r) = (some ⟨now, statusRunning⟩, false) := by
  unfold acquire_lock
  dsimp only
  rw [if_pos hs, if_pos hage]

/-- Claim C7: with a running lock row present, acquire_lock raises the
already-running error and leaves the stored row unchanged when the lock
age is under the 30-minute staleness threshold, and succeeds with a fresh
started_at = now when the age exceeds the threshold. -/
theorem acquire_lock_exclusion_and_staleness (now : ℚ) (r : LockRow)
    (hs : r.status = statusRunning) :
    ((now - r.started_at) / 60 < 30 →
      acquire_lock now (some r) = (some r, true))
    ∧ ((now - r.started_at) / 60 > 30 →
      acquire_lock now (some r) = (some ⟨now, statusRunning⟩, false)) :=
  ⟨acquire_lock_busy now r hs, acquire_lock_stale now r hs⟩

/-- Witness for claim C7 at concrete inputs: a 1-minute-old lock makes a
second acquire fail without mutating the row, and a 120-minute-old lock is
reclaimed with a fresh timestamp. -/
theorem acquire_lock_exclusion_and_staleness_witness :
    acquire_lock 60 (some ⟨0, statusRunning⟩)
      = (some ⟨0, statusRunning⟩, true)
    ∧ acquire_lock 7200 (some ⟨0, statusRunning⟩)
      = (some ⟨7200, statusRunning⟩, false) :=
  ⟨(acquire_lock_exclusion_and_staleness 60 ⟨0, statusRunning⟩ rfl).1
      (by norm_num),
    (acquire_lock_exclusion_and_staleness 7200 ⟨0, statusRunning⟩ rfl).2
      (by norm_num)⟩

/-! ### The orchestrator control flow (run_etl lines 467-549)

run_etl wraps the page loop in try / except Exception / finally: any
exception — the already-running RuntimeError from acquire_lock included —
sets status to failed, and the finally block FIRST calls release_lock
(which unconditionally deletes the lock row of the job) and THEN appends
the run log entry.  The page-loop body is abstracted by the rows it
processed and the exception it raised, if any. -/

inductive RunStatus
  | success
  | failed
deriving DecidableEq

/-- The externally visible actions of the tail of run_etl, in order. -/
inductive RunEvent
  | releaseLock
  | recordRun (status : RunStatus) (rows : Nat)
deriving DecidableEq

/-- The try / except / finally skeleton of run_etl.  Given the lock table
and the outcome the loop body would produce (rows processed, optional
exception), returns the final lock table together with the ordered events
of the finally block.  release_lock deletes the lock row, so the final
lock table is always none. -/
def run_etl_flow (now : ℚ) (tbl : Option LockRow) (bodyRows : Nat)
    (bodyErr : Option Unit) : Option LockRow × List RunEvent :=
  match acquire_lock now tbl with
  | (_, true) =>
    (none, [RunEvent.releaseLock, RunEvent.recordRun RunStatus.failed 0])
  | (_, false) =>
    match bodyErr with
    | some _ =>
      (none,
        [RunEvent.releaseLock, RunEvent.recordRun RunStatus.failed bodyRows])
    | none =>
      (none,
        [RunEvent.releaseLock,
          RunEvent.recordRun RunStatus.success bodyRows])

/-- Claim C8: when acquire_lock raises the already-running error against a
fresh (under-30-minutes) running lock held by another invocation, the
aborting run still executes its finally block: release_lock deletes the
other run's lock row (final lock table none) and only afterwards the
failed run is recorded — the event list is exactly releaseLock followed by
recordRun failed 0. -/
theorem run_abort_on_contention_releases_lock (now : ℚ) (r : LockRow)
    (bodyRows : Nat) (bodyErr : Option Unit)
    (hs : r.status = statusRunning)
    (hage : (now - r.started_at) / 60 < 30) :
    run_etl_flow now (some r) bodyRows bodyErr
      = (none,
        [RunEvent.releaseLock, RunEvent.recordRun RunStatus.failed 0]) := by
  have hacq := acquire_lock_busy now r hs hage
  unfold run_etl_flow
  rw [hacq]

/-- Witness for claim C8 at concrete inputs: contention against a
1-minute-old lock deletes that lock and records a failed run. -/
theorem run_abort_on_contention_releases_lock_witness :
    run_etl_flow 60 (some ⟨0, statusRunning⟩) 42 none
      = (none,
        [RunEvent.releaseLock, RunEvent.recordRun RunStatus.failed 0]) :=
  run_abort_on_contention_releases_lock 60 ⟨0, statusRunning⟩ 42 none rfl
    (by norm_num)

/-! ### Individual fetch failures are swallowed (parallel_fetch lines
271-306, run_etl lines 509-549)

In parallel_fetch a failed future is logged and skipped (continue) and no
exception escapes the generator; run_etl therefore only reaches its except
branch through the lock or through a load failure. -/

/-- The pages yielded by parallel_fetch, given the results of the
completed futures in completion order: none stands for a page whose fetch
raised (it is logged and skipped), some p is yielded, and the generator
returns right after yielding a page with has_more = false. -/
def parallel_fetch_yield : List (Option FetchPage) → List FetchPage
  | [] => []
  | none :: rest => parallel_fetch_yield rest
  | some p :: rest =>
    p :: (if p.has_more then parallel_fetch_yield rest else [])

/-- The try-block body of run_etl over the yielded pages: each page is
transformed and upserted (loadFail p = true means the upsert of page p
raises), the processed total accumulates the returned counts of the pages
loaded before any failure. -/
def etlBody (loadFail : FetchPage → Bool) :
    List FetchPage → Nat × Option Unit
  | [] => (0, none)
  | p :: ps =>
    if loadFail p then (0, some ())
    else
      ((etlBody loadFail ps).1 + p.returned, (etlBody loadFail ps).2)

/-- run_etl assembled from the fetch outcomes: the yielded pages feed the
body, whose rows and exception feed the try / except / finally skeleton. -/
def run_etl_model (now : ℚ) (tbl : Option LockRow)
    (loadFail : FetchPage → Bool) (outcomes : List (Option FetchPage)) :
    Option LockRow × List RunEvent :=
  run_etl_flow now tbl
    (etlBody loadFail (parallel_fetch_yield outcomes)).1
    (etlBody loadFail (parallel_fetch_yield outcomes)).2

/-- When every completed future failed, parallel_fetch yields nothing. -/
lemma parallel_fetch_yield_all_none (outcomes : List (Option FetchPage))
    (h : ∀ o ∈ outcomes, o = none) :
    parallel_fetch_yield outcomes = [] := by
  induction outcomes with
  | nil => rfl
  | cons o rest ih =>
    have ho := h o (List.mem_cons_self o rest)
    subst ho
    show parallel_fetch_yield rest = []
    exact ih (fun x hx => h x (List.mem_cons_of_mem none hx))

/-- The six initially submitted pages of a run with the default
FETCH_WORKERS = 6, every one of which fails. -/
def c3outcomes : List (Option FetchPage) :=
  [none, none, none, none, none, none]

/-- Counterexample to claim C3: a run in which every one of its six page
fetches fails yields no pages, raises nothing, and is recorded with
status success and 0 rows — not with status failed as the claim
requires. -/
theorem all_fetches_failed_success_counterexample :
    c3outcomes.length = 6
    ∧ (∀ o ∈ c3outcomes, o = none)
    ∧ parallel_fetch_yield c3outcomes = []
    ∧ run_etl_model 0 none (fun _ => false) c3outcomes
      = (none,
        [RunEvent.releaseLock,
          RunEvent.recordRun RunStatus.success 0]) := by
  refine ⟨by decide, by decide, by decide, by decide⟩

/-- Claim C3 amended: failed page fetches are logged and skipped inside
parallel_fetch and never raise into run_etl, so a run in which EVERY page
fetch fails (with the lock free and hence acquired) completes the loop
with zero pages and is recorded with status success and rows_processed =
0; it is not recorded as failed. -/
theorem all_fetches_failed_recorded_success (now : ℚ)
    (loadFail : FetchPage → Bool) (outcomes : List (Option FetchPage))
    (h : ∀ o ∈ outcomes, o = none) :
    run_etl_model now none loadFail outcomes
      = (none,
        [RunEvent.releaseLock,
          RunEvent.recordRun RunStatus.success 0]) := by
  unfold run_etl_model
  rw [parallel_fetch_yield_all_none outcomes h]
  rfl

/-- A two-failure outcome list for the amended claim C3 witness. -/
def c3wOutcomes : List (Option FetchPage) := [none, none]

/-- Witness for the amended claim C3 at a concrete input. -/
theorem all_fetches_failed_recorded_success_witness :
    run_etl_model 5 none (fun _ => true) c3wOutcomes
      = (none,
        [RunEvent.releaseLock,
          RunEvent.recordRun RunStatus.success 0]) :=
  all_fetches_failed_recorded_success 5 (fun _ => true) c3wOutcomes
    (by decide)

/-! ### Mode-aware offset resolution (run_etl lines 484-507,
get_checkpoint lines 116-126)

Calendar dates are modeled as day numbers; the stored checkpoint row is
(last_offset, last_run day). -/

/-- The MODE literal for incremental daily runs. -/
def modeDaily : String := "daily"

/-- The MODE literal for historical backfill runs. -/
def modeHistorical : String := "historical"

/-- get_checkpoint: the stored row, or offset 0 with no timestamp when
the job has never run. -/
def get_checkpoint (row : Option (Nat × Nat)) : Nat × Option Nat :=
  match row with
  | some rc => (rc.1, some rc.2)
  | none => (0, none)

/-- The externally visible actions of the run_etl prologue, in program
order: persisting a checkpoint, taking the lock, starting to fetch. -/
inductive EtlEvent
  | saveCk (off : Nat)
  | acquire
  | fetchStart (off : Nat)
deriving DecidableEq

/-- The offset-resolution prologue of run_etl as an ordered event trace.
In daily mode a stored last_run whose day precedes today resets the
offset to 0 and immediately persists the reset (save_checkpoint(JOB_NAME,
0)); otherwise — last_run today, or no previous run, or historical mode —
the run resumes from the stored offset.  Fetching starts only after the
prologue and the lock acquisition. -/
def run_etl_prologue (mode : String) (row : Option (Nat × Nat))
    (today : Nat) : Nat × List EtlEvent :=
  let ck := get_checkpoint row
  let pre : Nat × List EtlEvent :=
    if mode = modeDaily then
      match ck.2 with
      | some d =>
        if d < today then (0, [EtlEvent.saveCk 0]) else (ck.1, [])
      | none => (ck.1, [])
    else (ck.1, [])
  (pre.1, pre.2 ++ [EtlEvent.acquire, EtlEvent.fetchStart pre.1])

/-- Claim C5: in daily mode, a stored checkpoint whose last_run day
precedes today starts the run from offset 0 and persists the reset
checkpoint (saveCk 0) before the lock is taken and before fetching
starts, while a stored checkpoint whose last_run day IS today resumes
from the stored offset. -/
theorem daily_reset_and_resume (off d today : Nat) :
    (d < today →
      run_etl_prologue modeDaily (some (off, d)) today
        = (0, [EtlEvent.saveCk 0, EtlEvent.acquire, EtlEvent.fetchStart 0]))
    ∧ (d = today →
      run_etl_prologue modeDaily (some (off, d)) today
        = (off, [EtlEvent.acquire, EtlEvent.fetchStart off])) := by
  constructor
  · intro h
    simp [run_etl_prologue, get_checkpoint, h]
  · intro h
    have h2 : ¬d < today := by omega
    simp [run_etl_prologue, get_checkpoint, h2]

/-- Witness for claim C5 at the concrete inputs of the spec: yesterday's
checkpoint at offset 500 resets (and persists) to 0 before fetching;
today's checkpoint at offset 200 resumes from 200. -/
theorem daily_reset_and_resume_witness :
    run_etl_prologue modeDaily (some (500, 9)) 10
      = (0, [EtlEvent.saveCk 0, EtlEvent.acquire, EtlEvent.fetchStart 0])
    ∧ run_etl_prologue modeDaily (some (200, 10)) 10
      = (200, [EtlEvent.acquire, EtlEvent.fetchStart 200]) :=
  ⟨(daily_reset_and_resume 500 9 10).1 (by decide),
    (daily_reset_and_resume 200 10 10).2 rfl⟩

/-! ### Retry classification of the fetch client (fetch_offset lines
213-243)

fetch_offset is decorated with
retry(retry_if_exception_type(requests.exceptions.RequestException),
stop_after_attempt(5)).  Inside one attempt: a 429 response raises an
explicit RequestException after honoring Retry-After; any other status of
400 and above makes resp.raise_for_status() raise HTTPError, a subclass
of RequestException; a 2xx body that fails to parse raises the
JSONDecodeError of requests (a RequestException subclass since requests
2.27). -/

inductive ReqOutcome
  | netFail
  | httpResp (status : Nat) (jsonOk : Bool)
deriving DecidableEq

/-- The RequestException subclasses an attempt can raise. -/
inductive ReqExcKind
  | connectionError
  | tooManyRequests
  | httpError (status : Nat)
  | jsonDecode
deriving DecidableEq

/-- An exception leaving one attempt: either a subclass of
requests.exceptions.RequestException, or anything else. -/
inductive FetchErr
  | reqExc (kind : ReqExcKind)
  | otherExc
deriving DecidableEq

deriving instance DecidableEq for Except

/-- One attempt of the body of fetch_offset. -/
def attemptFetch : ReqOutcome → Except FetchErr Unit
  | ReqOutcome.netFail =>
    Except.error (FetchErr.reqExc ReqExcKind.connectionError)
  | ReqOutcome.httpResp st jsonOk =>
    if st = 429 then
      Except.error (FetchErr.reqExc ReqExcKind.tooManyRequests)
    else if 400 ≤ st then
      Except.error (FetchErr.reqExc (ReqExcKind.httpError st))
    else if jsonOk then Except.ok ()
    else Except.error (FetchErr.reqExc ReqExcKind.jsonDecode)

/-- The tenacity retry predicate of the decorator:
retry_if_exception_type(requests.exceptions.RequestException). -/
def retriedByTenacity : FetchErr → Bool
  | FetchErr.reqExc _ => true
  | FetchErr.otherExc => false

/-- The retry driver with stop_after_attempt(5): runs attempts against
the successive environment outcomes, counting attempts made; an error
matched by the retry predicate with attempts remaining triggers another
attempt, anything else terminates. -/
def fetch_offset_run : Nat → List ReqOutcome → Nat × Except FetchErr Unit
  | _, [] => (0, Except.error FetchErr.otherExc)
  | fuel, o :: os =>
    match attemptFetch o with
    | Except.ok u => (1, Except.ok u)
    | Except.error e =>
      if retriedByTenacity e = true ∧ 1 < fuel then
        ((fetch_offset_run (fuel - 1) os).1 + 1,
          (fetch_offset_run (fuel - 1) os).2)
      else (1, Except.error e)

/-- fetch_offset under its retry decorator, 5 attempts. -/
def fetch_offset (outcomes : List ReqOutcome) :
    Nat × Except FetchErr Unit :=
  fetch_offset_run 5 outcomes

/-- An upstream that answers 404 to every attempt. -/
def c6outcomes : List ReqOutcome :=
  List.replicate 5 (ReqOutcome.httpResp 404 true)

/-- Counterexample to claim C6: a 404 response — a 4xx other than 429 —
raises HTTPError, which IS a requests RequestException and so IS matched
by the retry predicate; against an upstream that always answers 404,
fetch_offset makes all 5 attempts instead of propagating the error on the
first occurrence. -/
theorem http404_retried_counterexample :
    attemptFetch (ReqOutcome.httpResp 404 true)
      = Except.error (FetchErr.reqExc (ReqExcKind.httpError 404))
    ∧ retriedByTenacity (FetchErr.reqExc (ReqExcKind.httpError 404)) = true
    ∧ (fetch_offset c6outcomes).1 = 5
    ∧ (fetch_offset c6outcomes).2
      = Except.error (FetchErr.reqExc (ReqExcKind.httpError 404)) := by
  refine ⟨by decide, by decide, by decide, by decide⟩

/-- Every failing attempt raises some RequestException subclass. -/
lemma attemptFetch_error_reqexc (o : ReqOutcome) (e : FetchErr)
    (h : attemptFetch o = Except.error e) :
    retriedByTenacity e = true := by
  cases o with
  | netFail =>
    simp [attemptFetch] at h
    rw [← h]
    rfl
  | httpResp st jsonOk =>
    unfold attemptFetch at h
    dsimp only at h
    split_ifs at h with h1 h2 h3 <;> simp_all [retriedByTenacity] <;>
      simp [← h]

/-- Attempts are made as long as outcomes remain. -/
lemma fetch_offset_run_pos (fuel : Nat) (o : ReqOutcome)
    (os : List ReqOutcome) : 1 ≤ (fetch_offset_run fuel (o :: os)).1 := by
  show 1 ≤ (match attemptFetch o with
    | Except.ok u => (1, Except.ok u)
    | Except.error e =>
      if retriedByTenacity e = true ∧ 1 < fuel then
        ((fetch_offset_run (fuel - 1) os).1 + 1,
          (fetch_offset_run (fuel - 1) os).2)
      else (1, Except.error e)).1
  cases attemptFetch o with
  | ok u => exact le_refl 1
  | error e =>
    dsimp only
    split_ifs
    · omega
    · exact le_refl 1

/-- Claim C6 amended: the retry layer of fetch_offset retries EVERY
requests RequestException — network errors, 429, 5xx, and also 4xx other
than 429 (HTTPError from raise_for_status) and malformed JSON bodies
(requests JSONDecodeError) — so no fatal class propagates on its first
occurrence: any failing first attempt is followed by a second attempt
whenever a further outcome exists. -/
theorem fetch_retries_every_request_exception (o o2 : ReqOutcome)
    (os : List ReqOutcome) (e : FetchErr)
    (h : attemptFetch o = Except.error e) :
    retriedByTenacity e = true
    ∧ 2 ≤ (fetch_offset (o :: o2 :: os)).1 := by
  have hr := attemptFetch_error_reqexc o e h
  refine ⟨hr, ?_⟩
  show 2 ≤ (fetch_offset_run 5 (o :: o2 :: os)).1
  have hstep : fetch_offset_run 5 (o :: o2 :: os)
      = ((fetch_offset_run 4 (o2 :: os)).1 + 1,
        (fetch_offset_run 4 (o2 :: os)).2) := by
    show (match attemptFetch o with
      | Except.ok u => (1, Except.ok u)
      | Except.error e =>
        if retriedByTenacity e = true ∧ 1 < 5 then
          ((fetch_offset_run (5 - 1) (o2 :: os)).1 + 1,
            (fetch_offset_run (5 - 1) (o2 :: os)).2)
        else (1, Except.error e)) = _
    rw [h]
    dsimp only
    rw [if_pos ⟨hr, by norm_num⟩]
  rw [hstep]
  have := fetch_offset_run_pos 4 o2 os
  omega

/-- Witness for the amended claim C6 at a concrete input: a first-attempt
500 response is classified retryable and a second attempt follows. -/
theorem fetch_retries_every_request_exception_witness :
    retriedByTenacity (FetchErr.reqExc (ReqExcKind.httpError 500)) = true
    ∧ 2 ≤ (fetch_offset
        [ReqOutcome.httpResp 500 true, ReqOutcome.netFail]).1 :=
  fetch_retries_every_request_exception (ReqOutcome.httpResp 500 true)
    ReqOutcome.netFail [] (FetchErr.reqExc (ReqExcKind.httpError 500))
    (by decide)

/-! ### The health evaluator (monitors.py, evaluate_run lines 32-73)

The baseline is the list of rows_processed values of the recent
successful runs of the same mode, as fetched by
fetch_recent_success_stats (SQL NULLs modeled as none).  The issue
strings of the Python code are modeled as an enumeration. -/

/-- The three heuristic issues evaluate_run can append. -/
inductive Issue
  | runtimeExceeded
  | dailyZero
  | historicalSmall
deriving DecidableEq

/-- The rolling baseline mean of evaluate_run: 0 when no baseline run
exists; otherwise the mean of the non-null rows_processed values, with
[0] substituted when every value is null. -/
def avg_rows (baseline : List (Option ℤ)) : ℚ :=
  if baseline.isEmpty then 0
  else
    (((if (baseline.filterMap id).isEmpty then [0]
        else baseline.filterMap id).sum : ℤ) : ℚ)
      / (((if (baseline.filterMap id).isEmpty then [0]
        else baseline.filterMap id).length : ℕ) : ℚ)

/-- evaluate_run: ok = no issue raised; the issues are the runtime SLA
breach, the daily zero-rows anomaly (rows_processed = 0 while the
baseline average is at least MIN_DAILY_EXPECTED_ROWS), and the historical
partial-load anomaly (rows below a quarter of a positive baseline
average). -/
def evaluate_run (mode : String) (rows_processed : ℤ)
    (runtime_seconds : ℚ) (max_runtime : ℤ) (min_daily_expected : ℤ)
    (baseline : List (Option ℤ)) : Bool × List Issue :=
  let avg := avg_rows baseline
  let i1 : List Issue :=
    if runtime_seconds > (max_runtime : ℚ) then [Issue.runtimeExceeded]
    else []
  let i2 : List Issue :=
    if mode = modeDaily ∧ rows_processed = 0
        ∧ avg ≥ (min_daily_expected : ℚ) then [Issue.dailyZero]
    else []
  let i3 : List Issue :=
    if mode = modeHistorical ∧ avg > 0
        ∧ (rows_processed : ℚ) < (1 / 4) * avg then [Issue.historicalSmall]
    else []
  ((i1 ++ i2 ++ i3).isEmpty, i1 ++ i2 ++ i3)

/-- A ten-run baseline averaging 500 rows. -/
def c9base500 : List (Option ℤ) := List.replicate 10 (some 500)

/-- A ten-run baseline averaging 0 rows. -/
def c9base0 : List (Option ℤ) := List.replicate 10 (some 0)

/-- Claim C9: a daily run with rows_processed = 0 is flagged with the
daily zero-rows anomaly exactly when the rolling baseline average is at
least the minimum expected threshold; concretely, with the default
threshold 1, a zero-row daily run against a 10-run baseline averaging 500
is flagged (and ok is false, so an alert is due), while one against a
baseline averaging 0 is not flagged. -/
theorem daily_zero_flagged_iff (rt : ℚ) (mr md : ℤ)
    (baseline : List (Option ℤ)) :
    (Issue.dailyZero ∈ (evaluate_run modeDaily 0 rt mr md baseline).2
      ↔ avg_rows baseline ≥ (md : ℚ))
    ∧ Issue.dailyZero
      ∈ (evaluate_run modeDaily 0 10 900 1 c9base500).2
    ∧ (evaluate_run modeDaily 0 10 900 1 c9base500).1 = false
    ∧ Issue.dailyZero
      ∉ (evaluate_run modeDaily 0 10 900 1 c9base0).2 := by
  have hms : ¬modeDaily = modeHistorical := by decide
  refine ⟨?_, ?_, ?_, ?_⟩
  · by_cases hav : avg_rows baseline ≥ (md : ℚ)
    · simp only [evaluate_run, hms, false_and, if_false]
      simp [hav]
    · simp only [evaluate_run, hms, false_and, if_false]
      simp only [List.append_nil]
      constructor
      · intro hmem
        rcases List.mem_append.mp hmem with hm | hm
        · split_ifs at hm
          · simp at hm
          · simp at hm
        · split_ifs at hm with hcond
          · exact absurd hcond.2.2 hav
          · simp at hm
      · intro hcontra
        exact absurd hcontra hav
  · have hav : avg_rows c9base500 = 500 := by
      norm_num [avg_rows, c9base500, List.filterMap_replicate]
    simp [evaluate_run, hms, hav]
  · have hav : avg_rows c9base500 = 500 := by
      norm_num [avg_rows, c9base500, List.filterMap_replicate]
    simp [evaluate_run, hms, hav]
  · have hav : avg_rows c9base0 = 0 := by
      norm_num [avg_rows, c9base0, List.filterMap_replicate]
    simp [evaluate_run, hms, hav]

/-! ### The row transformer (transform_page_fast lines 326-424)

JSON values as they reach the Python dicts: a missing key and an explicit
JSON null both surface as Python None, so Option JVal with jnull models
item.get(k).  The numeric fields go through
try: float(item.get(k) or 0) except: None, and the later
pd.to_numeric(col, errors=coerce) keeps the floats and maps the Nones to
NaN, modeled as none.  The created_date normalization
(pd.to_datetime/strftime) and the source_hash computation are carried as
opaque passthroughs or omitted: the hash-dependent behavior is modeled at
the loader level, and no claim depends on the date format.  The optional
category-dtype conversion at the end of the function changes only the
in-memory representation, not the values. -/

inductive JVal
  | jnull
  | jstr (s : String)
  | jnum (q : ℚ)
  | jbool (b : Bool)
deriving DecidableEq

/-- Python truthiness of a JSON value. -/
def truthy : JVal → Bool
  | JVal.jnull => false
  | JVal.jstr s => !s.isEmpty
  | JVal.jnum q => if q = 0 then false else true
  | JVal.jbool b => b

/-- Truthiness of item.get(k): a missing key is Python None, falsy. -/
def truthyOpt (v : Option JVal) : Bool :=
  match v with
  | none => false
  | some j => truthy j

/-- Whether item.get(k) is Python None (missing key or JSON null). -/
def isPyNoneOpt (v : Option JVal) : Bool :=
  match v with
  | none => true
  | some JVal.jnull => true
  | some _ => false

/-- The empty string literal. -/
def emptyStr : String := ""

/-- The Python expression (item.get(k) or 0). -/
def pyOrZero (v : Option JVal) : JVal :=
  match v with
  | none => JVal.jnum 0
  | some j => if truthy j then j else JVal.jnum 0

/-- Python whitespace accepted around a float literal. -/
def isSpaceChar (c : Char) : Bool :=
  c == ' ' || c == '\t' || c == '\n' || c == '\r'

/-- Strip surrounding whitespace from a character list. -/
def trimSpaces (cs : List Char) : List Char :=
  ((cs.dropWhile isSpaceChar).reverse.dropWhile isSpaceChar).reverse

/-- The numeric value of a digit run. -/
def digitsVal (cs : List Char) : Nat :=
  cs.foldl (fun n c => 10 * n + (c.toNat - 48)) 0

/-- Whether every character is a decimal digit. -/
def allDigits (cs : List Char) : Bool :=
  cs.all (fun c => c.isDigit)

/-- An unsigned Python float literal: digits with at most one decimal
point and at least one digit overall. -/
def parseUnsignedFloat (cs : List Char) : Option ℚ :=
  match cs.splitOn '.' with
  | [a] =>
    if a ≠ [] ∧ allDigits a then some ((digitsVal a : ℚ)) else none
  | [a, b] =>
    if (a ≠ [] ∨ b ≠ []) ∧ allDigits a ∧ allDigits b then
      some ((digitsVal a : ℚ) + (digitsVal b : ℚ) / ((10 : ℚ) ^ b.length))
    else none
  | _ => none

/-- Models the Python float() builtin on a string: surrounding whitespace
is stripped, an optional sign precedes a plain decimal literal; anything
else — a comma-grouped number in particular — raises ValueError, modeled
as none.  (Exponent, infinity and nan forms are omitted; no claim
involves them.) -/
def parseFloatLit (s : String) : Option ℚ :=
  match trimSpaces s.toList with
  | '+' :: rest => parseUnsignedFloat rest
  | '-' :: rest => (parseUnsignedFloat rest).map (fun q => -q)
  | cs => parseUnsignedFloat cs

/-- Models the Python float() builtin on the values a JSON field can
hold: numbers pass through, booleans coerce, None raises TypeError,
strings parse as float literals. -/
def pyFloat : JVal → Option ℚ
  | JVal.jnull => none
  | JVal.jbool b => some (if b then 1 else 0)
  | JVal.jnum q => some q
  | JVal.jstr s => parseFloatLit s

/-- The numeric coercion of one field in transform_page_fast:
try: float(item.get(k) or 0) except: None — with pd.to_numeric
errors=coerce later mapping that None to NaN (none here). -/
def coerceNumField (v : Option JVal) : Option ℚ :=
  pyFloat (pyOrZero v)

structure RawItem where
  item_number : Option JVal
  product_id : Option JVal
  plant : Option JVal
  description : Option JVal
  quantity : Option JVal
  unit : Option JVal
  unit_price : Option JVal
  net_value : Option JVal
  material_group : Option JVal
deriving DecidableEq

structure RawOrder where
  purchase_order_id : Option JVal
  created_date : Option JVal
  status : Option JVal
  supplier_id : Option JVal
  purchasing_group : Option JVal
  items : List RawItem
deriving DecidableEq

/-- A flattened output record of transform_page_fast: one tuple of the
cols list, with the three numeric columns post-coercion. -/
structure OutRecord where
  purchase_order_id : Option JVal
  line_item_number : Option JVal
  created_date : Option JVal
  status : Option JVal
  supplier_id : Option JVal
  purchasing_group : Option JVal
  plant : Option JVal
  product_id : Option JVal
  description : Option JVal
  quantity : Option ℚ
  unit : Option JVal
  unit_price : Option ℚ
  net_value : Option ℚ
  material_group : Option JVal
deriving DecidableEq

/-- The per-item body of the transform loop: an item whose item_number is
in (None, empty string) is dropped, an item with a falsy product_id is
dropped, every other item yields a record with permissively coerced
numeric fields. -/
def transformItem (order : RawOrder) (item : RawItem) : Option OutRecord :=
  if isPyNoneOpt item.item_number
      || item.item_number == some (JVal.jstr emptyStr) then none
  else if !truthyOpt item.product_id then none
  else some {
    purchase_order_id := order.purchase_order_id
    line_item_number := item.item_number
    created_date := order.created_date
    status := order.status
    supplier_id := order.supplier_id
    purchasing_group := order.purchasing_group
    plant := item.plant
    product_id := item.product_id
    description := item.description
    quantity := coerceNumField item.quantity
    unit := item.unit
    unit_price := coerceNumField item.unit_price
    net_value := coerceNumField item.net_value
    material_group := item.material_group }

/-- transform_page_fast: orders with a falsy purchase_order_id are
dropped whole; the surviving orders contribute their valid items in
order. -/
def transform_page_fast (orders : List RawOrder) : List OutRecord :=
  orders.flatMap (fun o =>
    if truthyOpt o.purchase_order_id then
      o.items.filterMap (transformItem o)
    else [])

/-- The record of a surviving item carries the coerced numeric fields. -/
lemma transformItem_fields (order : RawOrder) (item : RawItem)
    (rec : OutRecord) (hrec : transformItem order item = some rec) :
    rec.quantity = coerceNumField item.quantity
    ∧ rec.unit_price = coerceNumField item.unit_price
    ∧ rec.net_value = coerceNumField item.net_value := by
  unfold transformItem at hrec
  split_ifs at hrec
  simp only [Option.some.injEq] at hrec
  subst hrec
  exact ⟨rfl, rfl, rfl⟩

/-- Claim C10 amended: every item of a transformed page that passes the
identity checks yields exactly one record, whose quantity, unit price and
net value are the float() coercion of the raw values: plain float()
parsing with NO comma stripping, where an unparsable value becomes null
(none) without dropping the row, and a missing or falsy value becomes
0.0. -/
theorem transform_numeric_permissive (orders : List RawOrder)
    (o : RawOrder) (item : RawItem) (rec : OutRecord) (s : String)
    (ho : o ∈ orders) (hpo : truthyOpt o.purchase_order_id = true)
    (hitem : item ∈ o.items)
    (hrec : transformItem o item = some rec) :
    rec ∈ transform_page_fast orders
    ∧ rec.quantity = coerceNumField item.quantity
    ∧ rec.unit_price = coerceNumField item.unit_price
    ∧ rec.net_value = coerceNumField item.net_value
    ∧ (truthy (JVal.jstr s) = true → parseFloatLit s = none →
        coerceNumField (some (JVal.jstr s)) = none)
    ∧ coerceNumField none = some 0 := by
  have hf := transformItem_fields o item rec hrec
  refine ⟨?_, hf.1, hf.2.1, hf.2.2, ?_, rfl⟩
  · unfold transform_page_fast
    apply List.mem_flatMap.mpr
    refine ⟨o, ho, ?_⟩
    rw [if_pos hpo]
    exact List.mem_filterMap.mpr ⟨item, hitem, hrec⟩
  · intro ht hp
    show pyFloat (pyOrZero (some (JVal.jstr s))) = none
    have hz : pyOrZero (some (JVal.jstr s)) = JVal.jstr s := by
      unfold pyOrZero
      dsimp only
      rw [ht]
      simp
    rw [hz]
    exact hp

/-- The comma-grouped numeric string of the claim C10 counterexample. -/
def commaStr : String := "1,234"

/-- The same number with the comma stripped. -/
def strippedStr : String := "1234"

/-- Line-item number literal of the counterexample item. -/
def strOne : String := "1"

/-- Product id literal of the counterexample item. -/
def strProd : String := "P1"

/-- Purchase order id literal of the counterexample order. -/
def strPO : String := "PO9"

/-- The counterexample item: valid identity, quantity carrying the
comma-grouped string. -/
def c10item : RawItem := {
  item_number := some (JVal.jstr strOne)
  product_id := some (JVal.jstr strProd)
  plant := none
  description := none
  quantity := some (JVal.jstr commaStr)
  unit := none
  unit_price := none
  net_value := none
  material_group := none }

/-- The counterexample order holding the single item. -/
def c10order : RawOrder := {
  purchase_order_id := some (JVal.jstr strPO)
  created_date := none
  status := none
  supplier_id := none
  purchasing_group := none
  items := [c10item] }

/-- Counterexample to claim C10: the comma-stripped string 1234 IS a
parsable float, yet transform_page_fast maps the comma-grouped quantity
string to null — float() does no comma stripping, so the coercion is not
comma-tolerant as claimed; the row itself is kept. -/
theorem comma_string_not_stripped_counterexample :
    parseFloatLit strippedStr = some 1234
    ∧ parseFloatLit commaStr = none
    ∧ (transform_page_fast [c10order]).map (fun rec => rec.quantity)
      = [none] := by
  refine ⟨by decide, by decide, by decide⟩

/-- The unparsable quantity literal of the witness item. -/
def strNaWord : String := "pending"

/-- An item whose quantity is an unparsable word, for the amended claim
C10 witness. -/
def c10wItem : RawItem := {
  item_number := some (JVal.jstr strOne)
  product_id := some (JVal.jstr strProd)
  plant := none
  description := none
  quantity := some (JVal.jstr strNaWord)
  unit := none
  unit_price := none
  net_value := none
  material_group := none }

/-- The witness order holding the single witness item. -/
def c10wOrder : RawOrder := {
  purchase_order_id := some (JVal.jstr strPO)
  created_date := none
  status := none
  supplier_id := none
  purchasing_group := none
  items := [c10wItem] }

/-- Witness for the amended claim C10 at a concrete input: the record of
an item with an unparsable quantity is kept in the page, its quantity is
the (null) coercion of the raw value, and the coercion laws hold. -/
theorem transform_numeric_permissive_witness :
    (transformItem c10wOrder c10wItem).getD
        { purchase_order_id := none, line_item_number := none,
          created_date := none, status := none, supplier_id := none,
          purchasing_group := none, plant := none, product_id := none,
          description := none, quantity := none, unit := none,
          unit_price := none, net_value := none, material_group := none }
      ∈ transform_page_fast [c10wOrder]
    ∧ coerceNumField none = some 0 := by
  have h := transform_numeric_permissive [c10wOrder] c10wOrder c10wItem
    ((transformItem c10wOrder c10wItem).getD
      { purchase_order_id := none, line_item_number := none,
        created_date := none, status := none, supplier_id := none,
        purchasing_group := none, plant := none, product_id := none,
        description := none, quantity := none, unit := none,
        unit_price := none, net_value := none, material_group := none })
    strNaWord (by decide) (by decide) (by decide) (by decide)
  exact ⟨h.1, h.2.2.2.2.2⟩

end SkuEtl
